import Mathlib

/-!
A shallow embedding, in Lean, of the TypeScript end-to-end test framework of the
easyPlaywright repository (page objects, test helpers, accessibility helpers and
the static Playwright configuration), together with theorems settling the
specification claims about that code.

Modelling conventions:
* JavaScript strings are Lean `String`s; the JS string operations `trim`,
  `toLowerCase`, `startsWith` and `includes` are embedded as executable
  functions over the underlying character list (`jsTrim`, `jsToLower`,
  `jsStartsWith`, `jsIncludes`).
* `async` functions that consult the browser become pure functions over an
  explicit DOM/page state; a fallible operation returns `Except`.
* A nullable value (`string | null`) is an `Option String`; JS template
  interpolation of a nullable prints `"null"` for `null` (`jsStr`).
* Loops that push onto an array are embedded as accumulator recursions.
-/

namespace EasyPlaywright

/-- The JS whitespace test used by `trim`; modelled by `Char.isWhitespace`. -/
def jsWhitespace (c : Char) : Bool := c.isWhitespace

/-- Drop leading whitespace from a character list (front half of JS `trim`). -/
def wsDropFront (s : List Char) : List Char := s.dropWhile jsWhitespace

/-- Drop trailing whitespace from a character list (back half of JS `trim`). -/
def wsDropBack (s : List Char) : List Char :=
  (s.reverse.dropWhile jsWhitespace).reverse

/-- JS `String.prototype.trim`: remove whitespace at both ends. -/
def trimChars (s : List Char) : List Char := wsDropBack (wsDropFront s)

/-- JS `String.prototype.trim` on `String`. -/
def jsTrim (s : String) : String := String.mk (trimChars s.data)

/-- JS `String.prototype.toLowerCase` (ASCII model). -/
def jsToLower (s : String) : String := String.mk (s.data.map Char.toLower)

/-- JS `String.prototype.startsWith`. -/
def jsStartsWith (s pre : String) : Bool := decide (pre.data <+: s.data)

/-- JS `String.prototype.includes`. -/
def jsIncludes (s sub : String) : Bool := decide (sub.data <:+: s.data)

/-- JS template interpolation of a `string | null` value: `null` prints "null". -/
def jsStr (s : Option String) : String := s.getD "null"

/-! ### `retry` and `wait` (src/utils test helpers)

`wait(ms)` only sleeps, so a run of `retry` is abstracted as a trace: how many
times `fn` was invoked, which delays were awaited (in order), and the final
outcome.  The attempts of the supplied async function `fn` are modelled by a
function from the invocation index (0-based) to that invocation's outcome.
An `Except.error none` outcome models `throw lastError` with `lastError`
still `undefined`. -/

/-- Trace of one call of the `retry` helper: number of `fn` invocations,
the `wait(delay)` calls awaited in order, and the outcome. -/
structure RetryTrace (E A : Type) where
  calls : Nat
  sleeps : List Int
  result : Except (Option E) A

/-- The optional-field options record `{ maxAttempts?, delay? }` of `retry`. -/
structure RetryOptions where
  maxAttempts : Option Int
  delay : Option Int
deriving DecidableEq

/-- The `for (let attempt = 1; attempt <= maxAttempts; attempt++)` loop of
`retry`: `n` iterations remain, `k` invocations already happened, and
`lastError` holds the last caught error (`none` = still `undefined`).
On failure the loop records the caught error and, when further attempts
remain (`attempt < maxAttempts`), awaits `wait(delay)`. -/
def retryAux {E A : Type} (fn : Nat → Except E A) (delay : Int) :
    Nat → Nat → Option E → RetryTrace E A
  | _, 0, lastError => ⟨0, [], Except.error lastError⟩
  | k, n + 1, _ =>
    match fn k with
    | Except.ok v => ⟨1, [], Except.ok v⟩
    | Except.error e =>
      ⟨(retryAux fn delay (k + 1) n (some e)).calls + 1,
       (if n = 0 then [] else [delay]) ++ (retryAux fn delay (k + 1) n (some e)).sleeps,
       (retryAux fn delay (k + 1) n (some e)).result⟩

/-- `retry(fn, options)` from the test helpers: defaults `maxAttempts = 3`,
`delay = 1000`, then runs the attempt loop starting with `lastError`
undefined. -/
def retry {E A : Type} (fn : Nat → Except E A) (options : RetryOptions) :
    RetryTrace E A :=
  retryAux fn (options.delay.getD 1000) 0 (options.maxAttempts.getD 3).toNat none

/-! ### Accessibility helpers (src/utils/accessibilityHelpers.ts) -/

/-- The severity labels of `A11yViolation`. -/
inductive Severity where
  | critical
  | serious
  | moderate
  | minor
deriving DecidableEq

/-- The `A11yViolation` result record. -/
structure A11yViolation where
  element : String
  issue : String
  severity : Severity
deriving DecidableEq

/-- An `img` element: its `alt` and `src` attributes (`none` = absent). -/
structure ImgEl where
  alt : Option String
  src : Option String
deriving DecidableEq

/-- The `element` string built for an image violation. -/
def imgElementRef (img : ImgEl) : String :=
  "img[src=\"" ++ jsStr img.src ++ "\"]"

/-- The per-image loop of `checkImagesHaveAlt`, pushing onto `violations`:
a missing `alt` is a critical violation, an `alt` that trims to the empty
string is a minor one, any other `alt` produces nothing. -/
def checkImagesHaveAltLoop : List ImgEl → List A11yViolation → List A11yViolation
  | [], violations => violations
  | img :: rest, violations =>
    match img.alt with
    | none =>
      checkImagesHaveAltLoop rest (violations ++
        [⟨imgElementRef img, "Image missing alt attribute", Severity.critical⟩])
    | some alt =>
      if jsTrim alt = "" then
        checkImagesHaveAltLoop rest (violations ++
          [⟨imgElementRef img, "Image has empty alt (verify if decorative)", Severity.minor⟩])
      else
        checkImagesHaveAltLoop rest violations

/-- `checkImagesHaveAlt(page)` over the page's `img` elements in document
order. -/
def checkImagesHaveAlt (imgs : List ImgEl) : List A11yViolation :=
  checkImagesHaveAltLoop imgs []

/-- Claim-side per-image case analysis for `checkImagesHaveAlt`, written from
the specification's words: exactly one critical violation with issue
"Image missing alt attribute" for an absent `alt`, exactly one minor violation
for a whitespace-only `alt`, and none for an `alt` trimming non-empty. -/
def imgAltViolationSpec (img : ImgEl) : Option A11yViolation :=
  match img.alt with
  | none => some ⟨imgElementRef img, "Image missing alt attribute", Severity.critical⟩
  | some alt =>
    if jsTrim alt = "" then
      some ⟨imgElementRef img, "Image has empty alt (verify if decorative)", Severity.minor⟩
    else
      none

/-- An `a` element as read by `checkLinksAccessible`: text content,
`aria-label` and `href` attributes. -/
structure AnchorEl where
  text : Option String
  ariaLabel : Option String
  href : Option String
deriving DecidableEq

/-- The `!text?.trim() && !ariaLabel` test of `checkLinksAccessible`
(JS falsiness: missing or whitespace-only text, and missing or empty
`aria-label`). -/
def anchorLacksName (a : AnchorEl) : Bool :=
  (match a.text with
   | none => true
   | some t => jsTrim t = "") &&
  (match a.ariaLabel with
   | none => true
   | some l => l = "")

/-- The per-link loop of `checkLinksAccessible`. -/
def checkLinksAccessibleLoop : List AnchorEl → List A11yViolation → List A11yViolation
  | [], violations => violations
  | a :: rest, violations =>
    if anchorLacksName a then
      checkLinksAccessibleLoop rest (violations ++
        [⟨"a[href=\"" ++ jsStr a.href ++ "\"]", "Link has no accessible name", Severity.critical⟩])
    else
      checkLinksAccessibleLoop rest violations

/-- `checkLinksAccessible(page)` over the page's anchors. -/
def checkLinksAccessible (anchors : List AnchorEl) : List A11yViolation :=
  checkLinksAccessibleLoop anchors []

/-- A heading element: its level (from the tag name) and text. -/
structure HeadingEl where
  level : Nat
  text : String
deriving DecidableEq

/-- The level-skip loop of `checkHeadingHierarchy`, threading `lastLevel`. -/
def checkHeadingLoop : List HeadingEl → Nat → List A11yViolation → List A11yViolation
  | [], _, violations => violations
  | h :: rest, lastLevel, violations =>
    if h.level > lastLevel + 1 ∧ lastLevel ≠ 0 then
      checkHeadingLoop rest h.level (violations ++
        [⟨"h" ++ toString h.level,
          "Heading level skipped from h" ++ toString lastLevel ++ " to h" ++ toString h.level,
          Severity.moderate⟩])
    else
      checkHeadingLoop rest h.level violations

/-- `checkHeadingHierarchy(page)`: level skips, then multiple-`h1` and
missing-`h1` checks. -/
def checkHeadingHierarchy (headings : List HeadingEl) : List A11yViolation :=
  let skips := checkHeadingLoop headings 0 []
  let h1Count := (headings.filter (fun h => h.level = 1)).length
  let withMulti :=
    if h1Count > 1 then
      skips ++ [⟨"h1", "Multiple h1 elements found (" ++ toString h1Count ++ ")", Severity.moderate⟩]
    else
      skips
  if h1Count = 0 then
    withMulti ++ [⟨"h1", "No h1 element found on page", Severity.serious⟩]
  else
    withMulti

/-- `checkPageLanguage(page)`: the `lang` attribute of the document element
(`""` is falsy in JS, so it counts as unspecified). -/
def checkPageLanguage (lang : String) : List A11yViolation :=
  if lang = "" then
    [⟨"html", "Page language not specified", Severity.serious⟩]
  else
    []

/-- The parts of a page that `runAccessibilityChecks` consults. -/
structure A11yPage where
  imgs : List ImgEl
  anchors : List AnchorEl
  headings : List HeadingEl
  lang : String
deriving DecidableEq

/-- `runAccessibilityChecks(page)`: concatenation of the four checks. -/
def runAccessibilityChecks (p : A11yPage) : List A11yViolation :=
  checkImagesHaveAlt p.imgs ++ checkLinksAccessible p.anchors ++
    checkHeadingHierarchy p.headings ++ checkPageLanguage p.lang

/-- JS `Array.prototype.join` with separator `"\n"`. -/
def joinWithNewline : List String → String
  | [] => ""
  | [x] => x
  | x :: rest => x ++ "\n" ++ joinWithNewline rest

/-- `assertNoCriticalViolations(page)`: filters the critical violations and
throws a freshly constructed `Error` listing them when any exist. -/
def assertNoCriticalViolations (p : A11yPage) : Except String Unit :=
  let criticalViolations :=
    (runAccessibilityChecks p).filter (fun v => v.severity = Severity.critical)
  if criticalViolations.length > 0 then
    Except.error ("Critical accessibility violations found:\n" ++
      joinWithNewline (criticalViolations.map (fun v => v.element ++ ": " ++ v.issue)))
  else
    Except.ok ()

/-! ### `verifyLinksNotBroken` (src/utils test helpers)

The page's anchors are the list of their `href` attribute values; the
combination of `new URL(href, page.url())` and `page.request.head` is an
oracle from the raw `href` to either a status code or a failure
(`Except.error ()` covers both a URL-parse error and a request error,
which the source catches and skips). -/

/-- The broken-link entry `href + " (" + status + ")"`. -/
def brokenLinkEntry (href : String) (status : Nat) : String :=
  href ++ " (" ++ toString status ++ ")"

/-- The per-anchor loop of `verifyLinksNotBroken`: the `href && !startsWith`
guard (JS falsiness excludes the empty string), then the guarded
resolve-and-HEAD request whose failures are silently skipped. -/
def verifyLinksLoop (fetchHead : String → Except Unit Nat) :
    List (Option String) → List String → List String
  | [], brokenLinks => brokenLinks
  | href? :: rest, brokenLinks =>
    match href? with
    | none => verifyLinksLoop fetchHead rest brokenLinks
    | some href =>
      if href ≠ "" ∧ ¬ jsStartsWith href "#" = true ∧ ¬ jsStartsWith href "javascript:" = true then
        match fetchHead href with
        | Except.ok status =>
          if status ≥ 400 then
            verifyLinksLoop fetchHead rest (brokenLinks ++ [brokenLinkEntry href status])
          else
            verifyLinksLoop fetchHead rest brokenLinks
        | Except.error _ => verifyLinksLoop fetchHead rest brokenLinks
      else
        verifyLinksLoop fetchHead rest brokenLinks

/-- `verifyLinksNotBroken(page)` over the page's `a[href]` attribute values. -/
def verifyLinksNotBroken (hrefs : List (Option String))
    (fetchHead : String → Except Unit Nat) : List String :=
  verifyLinksLoop fetchHead hrefs []

/-- Claim-side version of `verifyLinksNotBroken`, written from the
specification's words: every href that neither starts with "#" nor with
"javascript:" and whose HEAD request resolves with status >= 400 yields an
entry, and failures are skipped.  (No exclusion of the empty href.) -/
def verifyLinksClaimSpec (hrefs : List (Option String))
    (fetchHead : String → Except Unit Nat) : List String :=
  hrefs.filterMap (fun href? => href?.bind (fun href =>
    if ¬ jsStartsWith href "#" = true ∧ ¬ jsStartsWith href "javascript:" = true then
      match fetchHead href with
      | Except.ok status =>
        if status ≥ 400 then some (brokenLinkEntry href status) else none
      | Except.error _ => none
    else none))

/-- Amended claim-side version of `verifyLinksNotBroken`: as
`verifyLinksClaimSpec` but, following the JS truthiness guard of the source,
also requiring the href to be non-empty. -/
def verifyLinksAmendedSpec (hrefs : List (Option String))
    (fetchHead : String → Except Unit Nat) : List String :=
  hrefs.filterMap (fun href? => href?.bind (fun href =>
    if href ≠ "" ∧ ¬ jsStartsWith href "#" = true ∧ ¬ jsStartsWith href "javascript:" = true then
      match fetchHead href with
      | Except.ok status =>
        if status ≥ 400 then some (brokenLinkEntry href status) else none
      | Except.error _ => none
    else none))

/-! ### BlogPostComponent and the homepage smoke test -/

/-- The `BlogPostData` record of the blog-post component. -/
structure BlogPostData where
  title : String
  date : String
  description : String
  tags : List String
  url : Option String
deriving DecidableEq

/-- A rendered post card: the text contents its locators would read and the
`href` of its title link. -/
structure PostCard where
  titleText : String
  dateText : String
  descText : String
  tagTexts : List String
  hrefAttr : Option String
deriving DecidableEq

/-- The page state `BlogPostComponent.getPostCount` consults: whether the posts
container is (or ever becomes) visible, and how many elements the post-card
locator matches. -/
structure HomePageState where
  postsContainerVisible : Bool
  postCardMatches : Nat
deriving DecidableEq

/-- `locator.waitFor({ state: visible })`: resolves when the element is
visible, rejects (timeout) otherwise. -/
def waitForVisible (visible : Bool) : Except Unit Unit :=
  if visible then Except.ok () else Except.error ()

/-- `BlogPostComponent.getPostCount`: awaits the container-visibility wait with
`.catch(() => {})`, discarding either outcome, then returns the post-card
count. -/
def getPostCount (s : HomePageState) : Nat :=
  match waitForVisible s.postsContainerVisible with
  | Except.ok _ => s.postCardMatches
  | Except.error _ => s.postCardMatches

/-- `HomePage.getRecentPostsCount`: delegates to `getPostCount`. -/
def getRecentPostsCount (s : HomePageState) : Nat :=
  getPostCount s

/-- The smoke test "should display at least one blog post":
`expect(postCount).toBeGreaterThan(0)`. -/
def smokeAtLeastOnePostPasses (s : HomePageState) : Bool :=
  decide (getRecentPostsCount s > 0)

/-- The title-collecting loop of `BlogPostComponent.getAllPostTitles`: pushes
`text.trim()` for every title text that trims non-empty. -/
def getAllPostTitlesLoop : List PostCard → List String → List String
  | [], titles => titles
  | c :: rest, titles =>
    if jsTrim c.titleText ≠ "" then
      getAllPostTitlesLoop rest (titles ++ [jsTrim c.titleText])
    else
      getAllPostTitlesLoop rest titles

/-- `BlogPostComponent.getAllPostTitles`. -/
def getAllPostTitles (cards : List PostCard) : List String :=
  getAllPostTitlesLoop cards []

/-- The `BlogPostData` that `getPostByIndex` assembles from one card. -/
def postDataOfCard (c : PostCard) : BlogPostData :=
  ⟨jsTrim c.titleText, jsTrim c.dateText, jsTrim c.descText,
   c.tagTexts.filterMap (fun t => if jsTrim t ≠ "" then some (jsTrim t) else none),
   c.hrefAttr⟩

/-- `BlogPostComponent.getPostByIndex`: reads the card at `index` of the
post-card locator list. -/
def getPostByIndex (cards : List PostCard) (index : Nat) : Option BlogPostData :=
  (cards.get? index).map postDataOfCard

/-- The `title.toLowerCase().includes(searchText.toLowerCase())` predicate of
`findPostContaining`. -/
def titleMatches (searchText title : String) : Bool :=
  jsIncludes (jsToLower title) (jsToLower searchText)

/-- `BlogPostComponent.findPostContaining`: `findIndex` over the collected
titles, then `getPostByIndex` at that index into the post-card list. -/
def findPostContaining (cards : List PostCard) (searchText : String) :
    Option BlogPostData :=
  match (getAllPostTitles cards).findIdx? (fun title => titleMatches searchText title) with
  | some matchingIndex => getPostByIndex cards matchingIndex
  | none => none

/-- Claim-side version of `findPostContaining`, written from the
specification's words: the data of the post at the smallest index whose title
contains the search string case-insensitively, `none` when no post title
contains it. -/
def findPostClaimSpec (cards : List PostCard) (searchText : String) :
    Option BlogPostData :=
  (cards.find? (fun c => titleMatches searchText c.titleText)).map postDataOfCard

/-! ### NavigationComponent.goToAbout and the smoke navigation test

The browser is modelled by its current URL, the visibility of the mobile menu
toggle, whether the menu is open, and the page's navigation links (with their
resolved target URL and text).  Clicking the toggle opens the menu; clicking a
navigation link navigates to its target; `waitForTimeout` and
`waitForLoadState('networkidle')` do not change the URL. -/

/-- A navigation link: its (resolved) `href` target and its text. -/
structure NavLink where
  href : List Char
  text : List Char
deriving DecidableEq

/-- The browser state the navigation component operates on. -/
structure BrowserState where
  url : List Char
  mobileMenuToggleVisible : Bool
  menuOpen : Bool
  navLinks : List NavLink
deriving DecidableEq

/-- The about-link locator `.visible-links a[href*="about"],
.masthead__menu-item a:has-text("About")`: CSS substring match on the href, or
case-insensitive substring match on the text. -/
def aboutLocatorMatches (l : NavLink) : Bool :=
  decide ("about".toList <:+: l.href) ||
    decide ("about".toList <:+: l.text.map Char.toLower)

/-- The `.first()` matched about link. -/
def aboutLink (s : BrowserState) : Option NavLink :=
  s.navLinks.find? aboutLocatorMatches

/-- The mobile branch of `goToAbout`: click the menu toggle when it is
visible (the following `waitForTimeout(300)` does not change state). -/
def clickMobileToggleIfVisible (s : BrowserState) : BrowserState :=
  if s.mobileMenuToggleVisible then
    { s with menuOpen := true }
  else
    s

/-- Clicking a navigation link navigates to its target URL
(`waitForLoadState('networkidle')` afterwards does not change it). -/
def clickNavLink (s : BrowserState) (l : NavLink) : BrowserState :=
  { s with url := l.href }

/-- `NavigationComponent.goToAbout`: open the mobile menu when the toggle is
visible, then click the about link; `none` models the click timing out because
no element matches the locator. -/
def goToAbout (s : BrowserState) : Option BrowserState :=
  match aboutLink (clickMobileToggleIfVisible s) with
  | some l => some (clickNavLink (clickMobileToggleIfVisible s) l)
  | none => none

/-- The JS regex test `/about/i.test(url)` used by `toHaveURL(/about/i)`:
case-insensitive substring search. -/
def matchesAboutI (url : List Char) : Bool :=
  decide ("about".toList <:+: url.map Char.toLower)

/-- Fixture: the About link of the deployed site. -/
def aboutNavLinkFixture : NavLink :=
  ⟨"https://othrondir.github.io/QAbbalah/about/".toList, "About".toList⟩

/-- Fixture: a desktop browser on the homepage with the About link present. -/
def aboutNavStateFixture : BrowserState :=
  ⟨"https://othrondir.github.io/QAbbalah/".toList, false, false, [aboutNavLinkFixture]⟩

/-! ### The static Playwright configuration (playwright.config.ts)

Fields depending on `process.env.CI` become functions of the optional value of
that environment variable; JS truthiness makes the empty string falsy. -/

/-- JS truthiness of an optional environment-variable value. -/
def envTruthy : Option String → Bool
  | none => false
  | some s => decide (s ≠ "")

/-- One reporter entry: its format name, optional `outputFile` and optional
`open` mode. -/
structure ReporterEntry where
  kind : String
  outputFile : Option String
  openMode : Option String
deriving DecidableEq

/-- The configuration object shape (the fields the specification speaks
about). -/
structure PlaywrightConfig where
  testDir : String
  fullyParallel : Bool
  forbidOnly : Option String → Bool
  retries : Option String → Int
  workers : Option String → Option Nat
  reporter : List ReporterEntry
  timeout : Int
  expectTimeout : Int
  baseURL : String
  outputDir : String

/-- The `defineConfig({...})` object of playwright.config.ts. -/
def playwrightConfig : PlaywrightConfig where
  testDir := "./src/tests"
  fullyParallel := true
  forbidOnly := fun ci => envTruthy ci
  retries := fun ci => if envTruthy ci then 2 else 0
  workers := fun ci => if envTruthy ci then some 1 else none
  reporter :=
    [⟨"html", none, some "never"⟩,
     ⟨"list", none, none⟩,
     ⟨"allure-playwright", none, none⟩,
     ⟨"json", some "test-results/results.json", none⟩]
  timeout := 30000
  expectTimeout := 10000
  baseURL := "https://othrondir.github.io/QAbbalah/"
  outputDir := "test-results/"

/-! ### Text-reading page-object operations

Each operation reads the text content of one located element
(`string | null`, as a character list) and returns
`(await el.textContent())?.trim() ?? ''`. -/

namespace ProfileComponent

/-- `ProfileComponent.getAuthorName`. -/
def getAuthorName (authorNameText : Option (List Char)) : List Char :=
  match authorNameText with
  | some text => trimChars text
  | none => []

/-- `ProfileComponent.getTagline`. -/
def getTagline (taglineText : Option (List Char)) : List Char :=
  match taglineText with
  | some text => trimChars text
  | none => []

end ProfileComponent

namespace PostPage

/-- `PostPage.getPostTitle`. -/
def getPostTitle (postTitleText : Option (List Char)) : List Char :=
  match postTitleText with
  | some text => trimChars text
  | none => []

end PostPage

namespace AboutPage

/-- `AboutPage.getHeadingText`. -/
def getHeadingText (aboutHeadingText : Option (List Char)) : List Char :=
  match aboutHeadingText with
  | some text => trimChars text
  | none => []

/-- `AboutPage.getBioText`. -/
def getBioText (bioTextContent : Option (List Char)) : List Char :=
  match bioTextContent with
  | some text => trimChars text
  | none => []

end AboutPage

namespace HomePage

/-- `HomePage.getMainHeading`. -/
def getMainHeading (headingText : Option (List Char)) : List Char :=
  match headingText with
  | some text => trimChars text
  | none => []

end HomePage

/-- Fixture: a page whose only image lacks an `alt` attribute. -/
def a11yPageFixture : A11yPage :=
  ⟨[⟨none, some "logo.png"⟩], [], [⟨1, "Title"⟩], "en"⟩

/-- Fixture: a post card whose title renders as whitespace only. -/
def blankTitleCard : PostCard :=
  ⟨"   ", "2024-01-01", "first", [], some "/QAbbalah/a/"⟩

/-- Fixture: a post card titled "Hello". -/
def helloCard : PostCard :=
  ⟨"Hello", "2024-02-02", "second", [], some "/QAbbalah/b/"⟩

/-! ## Theorems -/

/-- Claim C5: the homepage smoke check "loads and shows at least one post"
holds exactly when the post count is positive: `getPostCount` returns the
number of elements matched by the post-card locator (even when the posts
container never becomes visible, since the wait failure is swallowed by
`.catch(() => {})`), `getRecentPostsCount` merely delegates, and the smoke
test's `toBeGreaterThan(0)` assertion passes if and only if that count is
greater than 0. -/
theorem smoke_post_count_spec (s : HomePageState) :
    getPostCount s = s.postCardMatches ∧
    getRecentPostsCount s = s.postCardMatches ∧
    (smokeAtLeastOnePostPasses s = true ↔ 0 < s.postCardMatches) := by
  have h : getPostCount s = s.postCardMatches := by
    unfold getPostCount waitForVisible
    cases s.postsContainerVisible <;> simp
  refine ⟨h, h, ?_⟩
  unfold smokeAtLeastOnePostPasses getRecentPostsCount
  simp [h]

/-- Claim C9: when `retry` is called with `maxAttempts <= 0` the attempt loop
body never executes: `fn` is never invoked, no delay is awaited, and `retry`
throws the still-`undefined` initial value of `lastError` (modelled as
`Except.error none`). -/
theorem retry_nonpos_attempts {E A : Type} (fn : Nat → Except E A) (m d : Int)
    (h : m ≤ 0) :
    retry fn ⟨some m, some d⟩ = ⟨0, [], Except.error none⟩ := by
  show retryAux fn d 0 m.toNat none = _
  rw [Int.toNat_of_nonpos h]
  rfl

/-- Witness for `retry_nonpos_attempts` at `maxAttempts = 0`. -/
theorem retry_nonpos_attempts_witness :
    ((0 : Int) ≤ 0) ∧
      retry (fun _ => Except.ok 1 : Nat → Except Nat Nat) ⟨some 0, some 5⟩ =
        ⟨0, [], Except.error none⟩ :=
  ⟨le_refl 0, retry_nonpos_attempts (fun _ => Except.ok 1) 0 5 (le_refl 0)⟩

/-- Claim C7 counterexample: with the CI environment variable set to the empty
string (set, but falsy in JS), the configured retry count is 0, not the 2 the
claim's "when the CI environment variable is set" demands. -/
theorem config_retries_empty_ci_counterexample :
    playwrightConfig.retries (some "") = 0 ∧ (some "" : Option String).isSome = true :=
  ⟨rfl, rfl⟩

/-- Claim C7 (amended): the static configuration specifies base URL
`https://othrondir.github.io/QAbbalah/`, exactly the four reporters HTML,
list, allure-playwright and JSON to `test-results/results.json`, a per-test
timeout of 30000 ms, an expect timeout of 10000 ms, and a retry count of 2
when the CI environment variable is set to a non-empty string and 0 when it
is unset or empty. -/
theorem playwright_config_spec :
    (∀ s : String, s ≠ "" → playwrightConfig.retries (some s) = 2) ∧
    playwrightConfig.retries none = 0 ∧
    playwrightConfig.retries (some "") = 0 ∧
    playwrightConfig.baseURL = "https://othrondir.github.io/QAbbalah/" ∧
    playwrightConfig.reporter =
      [⟨"html", none, some "never"⟩, ⟨"list", none, none⟩,
       ⟨"allure-playwright", none, none⟩, ⟨"json", some "test-results/results.json", none⟩] ∧
    playwrightConfig.reporter.length = 4 ∧
    playwrightConfig.timeout = 30000 ∧
    playwrightConfig.expectTimeout = 10000 := by
  refine ⟨?_, rfl, rfl, rfl, rfl, rfl, rfl, rfl⟩
  intro s hs
  show (if envTruthy (some s) then (2 : Int) else 0) = 2
  simp [envTruthy, hs]

/-- Witness for `playwright_config_spec` at CI set to "true". -/
theorem playwright_config_spec_witness :
    ("true" ≠ "") ∧ playwrightConfig.retries (some "true") = 2 :=
  ⟨by decide, playwright_config_spec.1 "true" (by decide)⟩

/-- The image-check loop is the accumulator followed by one violation per
offending image, in document order. -/
theorem checkImagesHaveAltLoop_eq (imgs : List ImgEl) :
    ∀ acc, checkImagesHaveAltLoop imgs acc = acc ++ imgs.filterMap imgAltViolationSpec := by
  induction imgs with
  | nil => intro acc; simp [checkImagesHaveAltLoop]
  | cons img rest ih =>
    intro acc
    cases halt : img.alt with
    | none =>
      simp only [checkImagesHaveAltLoop, halt, List.filterMap_cons, imgAltViolationSpec]
      rw [ih]
      simp
    | some alt =>
      by_cases he : jsTrim alt = ""
      · simp only [checkImagesHaveAltLoop, halt, if_pos he, List.filterMap_cons,
          imgAltViolationSpec]
        rw [ih]
        simp
      · simp only [checkImagesHaveAltLoop, halt, if_neg he, List.filterMap_cons,
          imgAltViolationSpec]
        exact ih acc

/-- Claim C3: `checkImagesHaveAlt` produces, in document order, exactly one
violation per image as given by the claim's case analysis
(`imgAltViolationSpec`): a critical "Image missing alt attribute" violation
when `alt` is absent, a minor violation when `alt` is present but trims to the
empty string, and nothing when `alt` trims non-empty. -/
theorem checkImagesHaveAlt_spec :
    (∀ imgs, checkImagesHaveAlt imgs = imgs.filterMap imgAltViolationSpec) ∧
    (∀ src, imgAltViolationSpec ⟨none, src⟩ =
      some ⟨imgElementRef ⟨none, src⟩, "Image missing alt attribute", Severity.critical⟩) ∧
    (∀ alt src, imgAltViolationSpec ⟨some alt, src⟩ =
      if jsTrim alt = "" then
        some ⟨imgElementRef ⟨some alt, src⟩, "Image has empty alt (verify if decorative)",
          Severity.minor⟩
      else none) :=
  ⟨fun imgs => by simpa using checkImagesHaveAltLoop_eq imgs [],
   fun _ => rfl, fun _ _ => rfl⟩

/-- The broken-link loop is the accumulator followed by the per-href entries of
the amended specification. -/
theorem verifyLinksLoop_eq (fetchHead : String → Except Unit Nat)
    (hrefs : List (Option String)) :
    ∀ acc, verifyLinksLoop fetchHead hrefs acc = acc ++ verifyLinksAmendedSpec hrefs fetchHead := by
  induction hrefs with
  | nil => intro acc; simp [verifyLinksLoop, verifyLinksAmendedSpec]
  | cons href? rest ih =>
    intro acc
    cases href? with
    | none =>
      simp only [verifyLinksLoop, verifyLinksAmendedSpec, List.filterMap_cons, Option.none_bind]
      exact ih acc
    | some href =>
      by_cases hg : href ≠ "" ∧ ¬ jsStartsWith href "#" = true ∧
          ¬ jsStartsWith href "javascript:" = true
      · cases hf : fetchHead href with
        | ok status =>
          by_cases hs : status ≥ 400
          · simp only [verifyLinksLoop, verifyLinksAmendedSpec, List.filterMap_cons,
              Option.some_bind, if_pos hg, hf, if_pos hs]
            rw [ih]
            simp [verifyLinksAmendedSpec]
          · simp only [verifyLinksLoop, verifyLinksAmendedSpec, List.filterMap_cons,
              Option.some_bind, if_pos hg, hf, if_neg hs]
            exact ih acc
        | error u =>
          simp only [verifyLinksLoop, verifyLinksAmendedSpec, List.filterMap_cons,
            Option.some_bind, if_pos hg, hf]
          exact ih acc
      · simp only [verifyLinksLoop, verifyLinksAmendedSpec, List.filterMap_cons,
          Option.some_bind, if_neg hg]
        exact ih acc

/-- Claim C4 counterexample: an anchor with the empty `href` (which starts
with neither "#" nor "javascript:") whose HEAD request resolves with status
404 is skipped by the code's JS truthiness guard, contradicting the claim's
description of which hrefs are returned. -/
theorem verifyLinks_claim_counterexample :
    verifyLinksNotBroken [some ""] (fun _ => Except.ok 404) ≠
      verifyLinksClaimSpec [some ""] (fun _ => Except.ok 404) := by
  decide

/-- Claim C4 (amended): `verifyLinksNotBroken` returns exactly the hrefs of
anchors whose href is non-empty, starts with neither "#" nor "javascript:",
and whose HEAD request resolves with status >= 400, each formatted as the
href followed by the status in parentheses; a URL-parse or request failure
for a link is silently skipped, so no link makes the function itself throw. -/
theorem verifyLinksNotBroken_amended (hrefs : List (Option String))
    (fetchHead : String → Except Unit Nat) :
    verifyLinksNotBroken hrefs fetchHead = verifyLinksAmendedSpec hrefs fetchHead := by
  simpa using verifyLinksLoop_eq fetchHead hrefs []

/-- Claim C6: after `NavigationComponent.goToAbout` completes (opening the
mobile menu first when the toggle is visible, then clicking the About link and
waiting for network idle), the page URL matches the regex `/about/i` asserted
by the smoke navigation test, given that the clicked link was matched through
the `[href*="about"]` alternative of the locator (its href contains
"about"). -/
theorem goToAbout_url_matches (s : BrowserState) (l : NavLink) (s' : BrowserState)
    (hlink : aboutLink (clickMobileToggleIfVisible s) = some l)
    (hhref : "about".toList <:+: l.href)
    (hgo : goToAbout s = some s') :
    matchesAboutI s'.url = true := by
  unfold goToAbout at hgo
  rw [hlink] at hgo
  injection hgo with hgo'
  subst hgo'
  show matchesAboutI l.href = true
  unfold matchesAboutI
  apply decide_eq_true
  have hmap : ("about".toList).map Char.toLower <:+: l.href.map Char.toLower := by
    obtain ⟨u, v, huv⟩ := hhref
    exact ⟨u.map Char.toLower, v.map Char.toLower, by rw [← huv]; simp⟩
  have habout : ("about".toList).map Char.toLower = "about".toList := by decide
  rwa [habout] at hmap

/-- Witness for `goToAbout_url_matches` on the deployed site's About link. -/
theorem goToAbout_url_matches_witness :
    aboutLink (clickMobileToggleIfVisible aboutNavStateFixture) = some aboutNavLinkFixture ∧
    ("about".toList <:+: aboutNavLinkFixture.href) ∧
    goToAbout aboutNavStateFixture =
      some (clickNavLink aboutNavStateFixture aboutNavLinkFixture) ∧
    matchesAboutI (clickNavLink aboutNavStateFixture aboutNavLinkFixture).url = true := by
  have h1 : aboutLink (clickMobileToggleIfVisible aboutNavStateFixture) =
      some aboutNavLinkFixture := by decide
  have h2 : "about".toList <:+: aboutNavLinkFixture.href := by decide
  have h3 : goToAbout aboutNavStateFixture =
      some (clickNavLink aboutNavStateFixture aboutNavLinkFixture) := by decide
  exact ⟨h1, h2, h3,
    goToAbout_url_matches aboutNavStateFixture aboutNavLinkFixture _ h1 h2 h3⟩

/-- Dropping a prefix of `p`-elements twice is the same as dropping once. -/
theorem dropWhile_idem {α : Type} (p : α → Bool) (l : List α) :
    (l.dropWhile p).dropWhile p = l.dropWhile p := by
  induction l with
  | nil => rfl
  | cons a t ih =>
    by_cases hp : p a
    · simp [List.dropWhile_cons, hp, ih]
    · simp [List.dropWhile_cons, hp]

/-- The head surviving `dropWhile p` fails `p`. -/
theorem head?_dropWhile_false {α : Type} (p : α → Bool) (s : List α) (a : α)
    (h : (s.dropWhile p).head? = some a) : p a = false := by
  induction s with
  | nil => simp at h
  | cons c t ih =>
    by_cases hp : p c
    · rw [List.dropWhile_cons_of_pos hp] at h
      exact ih h
    · rw [List.dropWhile_cons_of_neg hp, List.head?_cons] at h
      obtain rfl : c = a := Option.some.inj h
      simpa using hp

/-- A list whose head fails `p` is unchanged by `dropWhile p`. -/
theorem dropWhile_head_false {α : Type} (p : α → Bool) (l : List α)
    (h : ∀ a, l.head? = some a → p a = false) : l.dropWhile p = l := by
  cases l with
  | nil => rfl
  | cons c t =>
    exact List.dropWhile_cons_of_neg (by simp [h c rfl])

/-- Removing trailing whitespace yields a prefix of the original list. -/
theorem wsDropBack_prefix (s : List Char) : wsDropBack s <+: s := by
  have h : s.reverse.dropWhile jsWhitespace <:+ s.reverse := List.dropWhile_suffix _
  obtain ⟨t, ht⟩ := h
  refine ⟨t.reverse, ?_⟩
  have h2 := congrArg List.reverse ht
  simpa [wsDropBack, List.reverse_append] using h2

/-- After a front trim, a back trim cannot create new leading whitespace. -/
theorem wsDropFront_wsDropBack (u : List Char) :
    wsDropFront (wsDropBack (wsDropFront u)) = wsDropBack (wsDropFront u) := by
  refine dropWhile_head_false _ _ (fun a ha => ?_)
  obtain ⟨r, hr⟩ := wsDropBack_prefix (wsDropFront u)
  have hhead : (wsDropFront u).head? = some a := by
    rw [← hr]
    cases hck : wsDropBack (wsDropFront u) with
    | nil => rw [hck] at ha; simp at ha
    | cons b t =>
      rw [hck] at ha
      rw [List.head?_cons] at ha
      obtain rfl : b = a := Option.some.inj ha
      simp
  exact head?_dropWhile_false jsWhitespace u a hhead

/-- Back-trimming is idempotent. -/
theorem wsDropBack_idem (s : List Char) : wsDropBack (wsDropBack s) = wsDropBack s := by
  unfold wsDropBack
  rw [List.reverse_reverse, dropWhile_idem]

/-- JS `trim` is idempotent: a trimmed list has no leading or trailing
whitespace. -/
theorem trimChars_idem (s : List Char) : trimChars (trimChars s) = trimChars s := by
  unfold trimChars
  rw [wsDropFront_wsDropBack, wsDropBack_idem]

/-- Claim C10: every text-reading operation of the page objects and components
(`ProfileComponent.getAuthorName` and `getTagline`, `PostPage.getPostTitle`,
`AboutPage.getHeadingText` and `getBioText`, `HomePage.getMainHeading`)
returns a (never-null, by type) string with no leading or trailing whitespace
— it is fixed by a further trim — and returns the empty string when the
located element has no text content. -/
theorem text_getters_trimmed (t : Option (List Char)) :
    (trimChars (ProfileComponent.getAuthorName t) = ProfileComponent.getAuthorName t ∧
      (t = none → ProfileComponent.getAuthorName t = [])) ∧
    (trimChars (ProfileComponent.getTagline t) = ProfileComponent.getTagline t ∧
      (t = none → ProfileComponent.getTagline t = [])) ∧
    (trimChars (PostPage.getPostTitle t) = PostPage.getPostTitle t ∧
      (t = none → PostPage.getPostTitle t = [])) ∧
    (trimChars (AboutPage.getHeadingText t) = AboutPage.getHeadingText t ∧
      (t = none → AboutPage.getHeadingText t = [])) ∧
    (trimChars (AboutPage.getBioText t) = AboutPage.getBioText t ∧
      (t = none → AboutPage.getBioText t = [])) ∧
    (trimChars (HomePage.getMainHeading t) = HomePage.getMainHeading t ∧
      (t = none → HomePage.getMainHeading t = [])) := by
  cases t with
  | none =>
    exact ⟨⟨rfl, fun _ => rfl⟩, ⟨rfl, fun _ => rfl⟩, ⟨rfl, fun _ => rfl⟩,
      ⟨rfl, fun _ => rfl⟩, ⟨rfl, fun _ => rfl⟩, ⟨rfl, fun _ => rfl⟩⟩
  | some s =>
    have h := trimChars_idem s
    exact ⟨⟨h, fun hc => nomatch hc⟩, ⟨h, fun hc => nomatch hc⟩, ⟨h, fun hc => nomatch hc⟩,
      ⟨h, fun hc => nomatch hc⟩, ⟨h, fun hc => nomatch hc⟩, ⟨h, fun hc => nomatch hc⟩⟩

/-- Witness for `text_getters_trimmed` at an absent text content. -/
theorem text_getters_trimmed_witness :
    (none : Option (List Char)) = none ∧ ProfileComponent.getAuthorName none = [] :=
  ⟨rfl, (text_getters_trimmed none).1.2 rfl⟩

/-- Claim C2 counterexample: `assertNoCriticalViolations` — which is neither
the retry helper nor the link-health checker — constructs and throws its own
`Error` value (with a severity-categorized message) on a page whose only
image lacks an `alt` attribute, refuting "no other function constructs its
own error values". -/
theorem assertNoCritical_invents_error :
    assertNoCriticalViolations a11yPageFixture =
      Except.error
        "Critical accessibility violations found:\nimg[src=\"logo.png\"]: Image missing alt attribute" :=
  rfl

/-- Claim C2 (amended): beyond the retry helper and the link checker, the
accessibility helpers also invent and categorize errors and
`BlogPostComponent.getPostCount` swallows a failure: the accessibility
assertion helper throws a freshly constructed error exactly when the checks
report a critical-severity violation, and `getPostCount` returns the post
count regardless of the outcome of its container wait. -/
theorem error_handling_sites (p : A11yPage) (s : HomePageState) :
    (assertNoCriticalViolations p = Except.ok () ↔
      (runAccessibilityChecks p).filter (fun v => v.severity = Severity.critical) = []) ∧
    getPostCount s = s.postCardMatches := by
  constructor
  · unfold assertNoCriticalViolations
    rcases Nat.eq_zero_or_pos
        ((runAccessibilityChecks p).filter (fun v => v.severity = Severity.critical)).length
      with h0 | hpos
    · rw [if_neg (by omega)]
      simp [List.length_eq_zero.mp h0]
    · rw [if_pos hpos]
      constructor
      · intro hcon
        exact nomatch hcon
      · intro hnil
        rw [hnil] at hpos
        simp at hpos
  · unfold getPostCount waitForVisible
    cases s.postsContainerVisible <;> simp

/-- `findIdx?` on a cons, phrased with `Option.map`. -/
theorem findIdx?_cons_map {α : Type} (p : α → Bool) (a : α) (l : List α) :
    (a :: l).findIdx? p = if p a then some 0 else (l.findIdx? p).map (· + 1) := by
  simp [List.findIdx?_cons]

/-- The title-collecting loop is the accumulator followed by the trimmed
non-empty titles. -/
theorem getAllPostTitlesLoop_eq (cards : List PostCard) :
    ∀ acc, getAllPostTitlesLoop cards acc =
      acc ++ cards.filterMap
        (fun c => if jsTrim c.titleText ≠ "" then some (jsTrim c.titleText) else none) := by
  induction cards with
  | nil => intro acc; simp [getAllPostTitlesLoop]
  | cons c rest ih =>
    intro acc
    by_cases hc : jsTrim c.titleText ≠ ""
    · simp only [getAllPostTitlesLoop, if_pos hc, List.filterMap_cons, hc, reduceIte]
      rw [ih]
      simp
    · simp only [getAllPostTitlesLoop, if_neg hc, List.filterMap_cons, hc, reduceIte]
      exact ih acc

/-- A conditional `filterMap` whose guard holds everywhere is a `map`. -/
theorem filterMap_if_eq_map {α β : Type} (f : α → β) (g : α → Prop) [DecidablePred g] :
    ∀ l : List α, (∀ c ∈ l, g c) →
      l.filterMap (fun c => if g c then some (f c) else none) = l.map f
  | [], _ => rfl
  | c :: rest, h => by
    have hc : g c := h c (List.mem_cons_self c rest)
    rw [List.filterMap_cons, List.map_cons]
    simp only [hc, if_true, reduceIte]
    rw [filterMap_if_eq_map f g rest (fun x hx => h x (List.mem_cons_of_mem _ hx))]

/-- When every card's title trims non-empty, the collected title list is the
pointwise trimmed title list of the cards. -/
theorem getAllPostTitles_all_nonempty (cards : List PostCard)
    (h : ∀ c ∈ cards, jsTrim c.titleText ≠ "") :
    getAllPostTitles cards = cards.map (fun c => jsTrim c.titleText) := by
  unfold getAllPostTitles
  rw [getAllPostTitlesLoop_eq cards [], List.nil_append]
  exact filterMap_if_eq_map _ _ cards h

/-- Indexing cards through `findIdx?` on the mapped title list is finding the
first matching card. -/
theorem findIdx_map_getPost (p : String → Bool) :
    ∀ cards : List PostCard,
      (match (cards.map (fun c => jsTrim c.titleText)).findIdx? p with
       | some i => getPostByIndex cards i
       | none => none) =
      (cards.find? (fun c => p (jsTrim c.titleText))).map postDataOfCard
  | [] => by simp [List.findIdx?_nil]
  | c :: rest => by
    rw [List.map_cons, findIdx?_cons_map]
    by_cases hp : p (jsTrim c.titleText)
    · rw [if_pos hp]
      simp [hp, List.find?_cons, getPostByIndex]
    · rw [if_neg hp]
      have hrec := findIdx_map_getPost p rest
      have hfind : (c :: rest).find? (fun c => p (jsTrim c.titleText)) =
          rest.find? (fun c => p (jsTrim c.titleText)) := by
        simp [List.find?_cons, hp]
      rw [hfind, ← hrec]
      cases hfi : (rest.map (fun c => jsTrim c.titleText)).findIdx? p with
      | none => rfl
      | some i => simp [getPostByIndex]

/-- Claim C8 counterexample: with a first card whose title renders as
whitespace only and a second card titled "Hello", searching for "hello"
returns the data of the FIRST card (the found index counts only non-blank
titles but indexes the full card list), not the data of the post at the
smallest index whose title contains the search string. -/
theorem findPostContaining_counterexample :
    findPostContaining [blankTitleCard, helloCard] "hello" ≠
      findPostClaimSpec [blankTitleCard, helloCard] "hello" := by
  decide

/-- Claim C8 (amended): when every card's title trims to a non-empty string,
`findPostContaining(s)` returns the data of the post at the smallest index
whose (trimmed) title contains `s` case-insensitively, and `none` exactly when
no post title contains `s`; in general the found index counts only the
non-blank titles, so blank-titled cards shift which card's data is
returned. -/
theorem findPostContaining_amended (cards : List PostCard) (searchText : String)
    (h : ∀ c ∈ cards, jsTrim c.titleText ≠ "") :
    findPostContaining cards searchText =
      (cards.find? (fun c => titleMatches searchText (jsTrim c.titleText))).map
        postDataOfCard := by
  unfold findPostContaining
  rw [getAllPostTitles_all_nonempty cards h]
  exact findIdx_map_getPost (titleMatches searchText) cards

/-- Witness for `findPostContaining_amended` on a single non-blank card. -/
theorem findPostContaining_amended_witness :
    (∀ c ∈ [helloCard], jsTrim c.titleText ≠ "") ∧
    findPostContaining [helloCard] "hello" =
      ([helloCard].find? (fun c => titleMatches "hello" (jsTrim c.titleText))).map
        postDataOfCard :=
  ⟨by decide, findPostContaining_amended [helloCard] "hello" (by decide)⟩

/-- Unfolding one successful attempt of the retry loop. -/
theorem retryAux_succ_ok {E A : Type} (fn : Nat → Except E A) (d : Int) (k m : Nat)
    (last : Option E) (v : A) (hfk : fn k = Except.ok v) :
    retryAux fn d k (m + 1) last = ⟨1, [], Except.ok v⟩ := by
  simp [retryAux, hfk]

/-- Unfolding one failed attempt of the retry loop. -/
theorem retryAux_succ_err {E A : Type} (fn : Nat → Except E A) (d : Int) (k m : Nat)
    (last : Option E) (e : E) (hfk : fn k = Except.error e) :
    retryAux fn d k (m + 1) last =
      ⟨(retryAux fn d (k + 1) m (some e)).calls + 1,
       (if m = 0 then [] else [d]) ++ (retryAux fn d (k + 1) m (some e)).sleeps,
       (retryAux fn d (k + 1) m (some e)).result⟩ := by
  simp [retryAux, hfk]

/-- The retry loop invokes `fn` at most as many times as it has iterations. -/
theorem retryAux_calls_le {E A : Type} (fn : Nat → Except E A) (d : Int) :
    ∀ (n k : Nat) (last : Option E), (retryAux fn d k n last).calls ≤ n := by
  intro n
  induction n with
  | zero => intro k last; exact Nat.le_refl 0
  | succ m ih =>
    intro k last
    cases hfk : fn k with
    | ok v =>
      rw [retryAux_succ_ok fn d k m last v hfk]
      exact Nat.succ_le_succ (Nat.zero_le m)
    | error e =>
      rw [retryAux_succ_err fn d k m last e hfk]
      exact Nat.succ_le_succ (ih (k + 1) (some e))

/-- A retry loop with at least one iteration invokes `fn` at least once. -/
theorem retryAux_calls_pos {E A : Type} (fn : Nat → Except E A) (d : Int) (k m : Nat)
    (last : Option E) : 0 < (retryAux fn d k (m + 1) last).calls := by
  cases hfk : fn k with
  | ok v =>
    rw [retryAux_succ_ok fn d k m last v hfk]
    exact Nat.one_pos
  | error e =>
    rw [retryAux_succ_err fn d k m last e hfk]
    exact Nat.succ_pos _

/-- The retry loop sleeps the delay exactly between consecutive invocations:
one sleep fewer than there are calls. -/
theorem retryAux_sleeps_eq {E A : Type} (fn : Nat → Except E A) (d : Int) :
    ∀ (n k : Nat) (last : Option E),
      (retryAux fn d k n last).sleeps =
        List.replicate ((retryAux fn d k n last).calls - 1) d := by
  intro n
  induction n with
  | zero => intro k last; rfl
  | succ m ih =>
    intro k last
    cases hfk : fn k with
    | ok v =>
      rw [retryAux_succ_ok fn d k m last v hfk]
      rfl
    | error e =>
      rw [retryAux_succ_err fn d k m last e hfk]
      cases m with
      | zero => rfl
      | succ m' =>
        rw [ih (k + 1) (some e)]
        have hpos := retryAux_calls_pos fn d (k + 1) m' (some e)
        rw [if_neg (Nat.succ_ne_zero m')]
        have hc : (retryAux fn d (k + 1) (m' + 1) (some e)).calls - 1 + 1 =
            (retryAux fn d (k + 1) (m' + 1) (some e)).calls :=
          Nat.succ_pred_eq_of_pos hpos
        rw [Nat.add_sub_cancel]
        conv_rhs => rw [← hc]
        rw [List.replicate_succ]
        rfl

/-- If the first `i` invocations fail and invocation `i` succeeds within the
iteration budget, the retry loop returns that value after `i + 1` calls and
`i` sleeps. -/
theorem retryAux_first_success {E A : Type} (fn : Nat → Except E A) (d : Int) :
    ∀ (i n k : Nat) (last : Option E) (v : A), i < n → fn (k + i) = Except.ok v →
      (∀ j, j < i → ∃ e, fn (k + j) = Except.error e) →
      retryAux fn d k n last = ⟨i + 1, List.replicate i d, Except.ok v⟩ := by
  intro i
  induction i with
  | zero =>
    intro n k last v hn hok _
    obtain ⟨m, rfl⟩ : ∃ m, n = m + 1 := ⟨n - 1, by omega⟩
    rw [Nat.add_zero] at hok
    rw [retryAux_succ_ok fn d k m last v hok]
    rfl
  | succ i ih =>
    intro n k last v hn hok hfail
    obtain ⟨m, rfl⟩ : ∃ m, n = m + 1 := ⟨n - 1, by omega⟩
    obtain ⟨e0, he0⟩ := hfail 0 (Nat.succ_pos i)
    rw [Nat.add_zero] at he0
    rw [retryAux_succ_err fn d k m last e0 he0]
    have hok' : fn (k + 1 + i) = Except.ok v := by
      rw [show k + 1 + i = k + (i + 1) from by omega]
      exact hok
    have hfail' : ∀ j, j < i → ∃ e, fn (k + 1 + j) = Except.error e := by
      intro j hj
      obtain ⟨e, he⟩ := hfail (j + 1) (by omega)
      exact ⟨e, by rw [show k + 1 + j = k + (j + 1) from by omega]; exact he⟩
    rw [ih m (k + 1) (some e0) v (by omega) hok' hfail']
    rw [if_neg (by omega : ¬ m = 0)]
    rw [List.replicate_succ]
    rfl

/-- If every invocation within the iteration budget fails, the retry loop
makes all its calls, sleeps between consecutive ones, and ends with the error
of the last invocation. -/
theorem retryAux_all_fail {E A : Type} (fn : Nat → Except E A) (d : Int) (g : Nat → E) :
    ∀ (n k : Nat) (last : Option E), 0 < n →
      (∀ j, j < n → fn (k + j) = Except.error (g (k + j))) →
      retryAux fn d k n last =
        ⟨n, List.replicate (n - 1) d, Except.error (some (g (k + n - 1)))⟩ := by
  intro n
  induction n with
  | zero => intro k last hn; exact absurd hn (by omega)
  | succ m ih =>
    intro k last _ hfail
    have he0 : fn k = Except.error (g k) := by
      have h0 := hfail 0 (Nat.succ_pos m)
      rwa [Nat.add_zero] at h0
    rw [retryAux_succ_err fn d k m last (g k) he0]
    cases m with
    | zero =>
      have hk : k + 1 - 1 = k := by omega
      rw [hk]
      rfl
    | succ m' =>
      have hfail' : ∀ j, j < m' + 1 → fn (k + 1 + j) = Except.error (g (k + 1 + j)) := by
        intro j hj
        have hf := hfail (j + 1) (by omega)
        rwa [show k + (j + 1) = k + 1 + j from by omega] at hf
      rw [ih (k + 1) (some (g k)) (Nat.succ_pos m') hfail']
      rw [if_neg (Nat.succ_ne_zero m')]
      rw [show k + 1 + (m' + 1) - 1 = k + (m' + 1 + 1) - 1 from by omega]
      rw [show m' + 1 - 1 = m' from by omega]
      rw [show m' + 1 + 1 - 1 = m' + 1 from by omega]
      rw [List.replicate_succ]
      rfl

/-- Claim C1: for every `fn` and options with `maxAttempts >= 1`,
`retry(fn, {maxAttempts, delay})` invokes `fn` at most `maxAttempts` times,
sleeps `delay` exactly between consecutive invocations (and not after the
final one), returns the value of the first invocation that resolves, and,
when every invocation rejects, throws the error of the last invocation. -/
theorem retry_spec {E A : Type} (fn : Nat → Except E A) (m d : Int) (h : 1 ≤ m) :
    (retry fn ⟨some m, some d⟩).calls ≤ m.toNat ∧
    (retry fn ⟨some m, some d⟩).sleeps =
      List.replicate ((retry fn ⟨some m, some d⟩).calls - 1) d ∧
    (∀ i v, i < m.toNat → fn i = Except.ok v →
      (∀ j, j < i → ∃ e, fn j = Except.error e) →
      retry fn ⟨some m, some d⟩ = ⟨i + 1, List.replicate i d, Except.ok v⟩) ∧
    (∀ g : Nat → E, (∀ j, j < m.toNat → fn j = Except.error (g j)) →
      retry fn ⟨some m, some d⟩ =
        ⟨m.toNat, List.replicate (m.toNat - 1) d, Except.error (some (g (m.toNat - 1)))⟩) := by
  have hretry : retry fn ⟨some m, some d⟩ = retryAux fn d 0 m.toNat none := rfl
  refine ⟨?_, ?_, ?_, ?_⟩
  · rw [hretry]
    exact retryAux_calls_le fn d m.toNat 0 none
  · rw [hretry]
    exact retryAux_sleeps_eq fn d m.toNat 0 none
  · intro i v hi hok hfail
    rw [hretry]
    refine retryAux_first_success fn d i m.toNat 0 none v hi ?_ ?_
    · rwa [Nat.zero_add]
    · intro j hj
      obtain ⟨e, he⟩ := hfail j hj
      exact ⟨e, by rwa [Nat.zero_add]⟩
  · intro g hfail
    rw [hretry]
    have hf : ∀ j, j < m.toNat → fn (0 + j) = Except.error (g (0 + j)) := by
      intro j hj
      rw [Nat.zero_add]
      exact hfail j hj
    have hpos : 0 < m.toNat := by omega
    have hall := retryAux_all_fail fn d g m.toNat 0 none hpos hf
    rwa [Nat.zero_add] at hall

/-- Witness for `retry_spec`: two attempts with delay 5, the first failing
with error 7, the second resolving to 42. -/
theorem retry_spec_witness :
    ((1 : Int) ≤ 2) ∧
      retry (fun k => if k = 0 then Except.error 7 else Except.ok 42 : Nat → Except Nat Nat)
        ⟨some 2, some 5⟩ = ⟨2, [5], Except.ok 42⟩ := by
  refine ⟨by decide, ?_⟩
  have h := retry_spec (fun k => if k = 0 then Except.error 7 else Except.ok 42) 2 5 (by decide)
  refine h.2.2.1 1 42 (by decide) (by rfl) (fun j hj => ?_)
  have hj0 : j = 0 := by omega
  subst hj0
  exact ⟨7, rfl⟩

end EasyPlaywright
